import Mathlib

/-!
# Verification of `alloc_utils` (stack/linear arena allocators and a growable vector)

Shallow embedding of the Rust sources:

* `src/stack_alloc.rs`  — `StackAlloc`, a bump allocator over a borrowed byte buffer;
* `src/linear_alloc.rs` — `LinearAlloc`, the same design with a differently written
  alignment adjustment and hard `assert!`s in `grow_in_place`;
* `src/raw_vec.rs`      — `RawVec`, the capacity-tracking storage of the vector;
* `src/vec2.rs`         — `Vec`, the growable container built over any allocator
  (instantiated here with `LinearAlloc`, the allocator used by the crate's own tests).

Modelling conventions:

* `usize` is modelled as `Nat`; arithmetic the compiled (release) code can wrap is
  taken modulo `USIZE = 2 ^ 64`, `checked_add` is modelled explicitly, and
  `debug_assert!` (compiled out in release builds) is dropped while `assert!`
  (always compiled in) is modelled as a `panic` outcome.
* Raw pointers are modelled as `Nat` addresses.  The arena state records `base`,
  the address of `buf[0]`, because the source does its alignment arithmetic on
  absolute addresses; `get_block_idx` is the wrapping difference `ptr - base`.
* Fallible operations return their `Result` together with the state at the point
  of return, so theorems about "state unchanged on failure" are genuine statements
  about the translated control flow.
* Memory contents held by the vector are modelled as the list of initialised
  elements; `ptr::copy`/`ptr::write` become the corresponding list operations.
  An element type is represented by its `size_of` and `align_of` (`sz`, `al`);
  Rust guarantees `sz` is a multiple of `al`.
-/

set_option autoImplicit false

namespace AllocUtils

/-- The modulus of `usize` (the crate targets a 64-bit target). -/
def USIZE : Nat := 2 ^ 64

/-- Rust `usize::checked_add`. -/
def checkedAdd (a b : Nat) : Option Nat :=
  if a + b < USIZE then some (a + b) else none

/-- Wrapping `usize` subtraction `p - q` for `p q < USIZE`
(pointer differences in release builds wrap). -/
def usizeSub (p q : Nat) : Nat :=
  (p + USIZE - q) % USIZE

/-- Wrapping `usize` addition. -/
def usizeAdd (a b : Nat) : Nat :=
  (a + b) % USIZE

/-- Rust `Marker(usize)`: a saved `top` offset (identical in both allocator modules). -/
structure Marker where
  off : Nat
deriving DecidableEq

/-- Rust `StackAllocError` / `LinearAllocError`: both have the single variant `InvalidMarker`. -/
inductive ArenaError where
  | invalidMarker
deriving DecidableEq

/-- Result of `grow_in_place` / `shrink_in_place`, carrying the allocator state at
the point of return; `panic` models a failed `assert!`. -/
inductive GrowResult (σ : Type) where
  | ok (s : σ)
  | cannotGrow (s : σ)
  | panic
deriving DecidableEq

-- ----- StackAlloc (src/stack_alloc.rs) -----------------------------------------

/-- Rust `StackAlloc<'a>`: borrowed buffer of length `len` starting at address `base`,
cursor `top` and high-water mark `high` (both indices into the buffer). -/
structure StackAlloc where
  base : Nat
  len  : Nat
  top  : Nat
  high : Nat
deriving DecidableEq

namespace StackAlloc

/-- Rust `StackAlloc::new`: fresh allocator over a buffer. -/
def new (base len : Nat) : StackAlloc :=
  { base := base, len := len, top := 0, high := 0 }

/-- Rust `StackAlloc::reset`. -/
def reset (s : StackAlloc) : StackAlloc :=
  { s with top := 0 }

/-- Rust `StackAlloc::reset_to`. -/
def reset_to (s : StackAlloc) (m : Marker) : Except ArenaError Unit × StackAlloc :=
  if m.off < s.len ∧ m.off < s.top then
    (.ok (), { s with top := m.off })
  else
    (.error .invalidMarker, s)

/-- Rust `StackAlloc::get_marker`. -/
def get_marker (s : StackAlloc) : Marker :=
  ⟨s.top⟩

/-- Rust `StackAlloc::bytes_in_use`. -/
def bytes_in_use (s : StackAlloc) : Nat :=
  s.top

/-- Rust `StackAlloc::capacity`. -/
def capacity (s : StackAlloc) : Nat :=
  s.len

/-- Rust `StackAlloc::high_water_mark`. -/
def high_water_mark (s : StackAlloc) : Nat :=
  s.high

/-- Rust `StackAlloc::get_block_idx`: wrapping pointer difference to the buffer base. -/
def get_block_idx (s : StackAlloc) (ptr : Nat) : Nat :=
  usizeSub ptr s.base

/-- Rust `<StackAlloc as Alloc>::usable_size`: tight bounds. -/
def usable_size (size : Nat) : Nat × Nat :=
  (size, size)

/-- Rust `<StackAlloc as Alloc>::alloc`.  Returns the pointer handed to the caller
(`none` is `AllocErr`) and the state at the point of return.  Note the candidate
address is adjusted *downward*: `block_base - (block_base % align)`. -/
def alloc (s : StackAlloc) (size align : Nat) : Option Nat × StackAlloc :=
  if s.top = s.len then
    (none, s)
  else
    let blockBase0 := s.base + s.top
    let blockBase  := blockBase0 - blockBase0 % align
    let blockIdx   := usizeSub blockBase s.base
    match checkedAdd blockIdx size with
    | some newTop =>
      if blockIdx < s.len ∧ newTop ≤ s.len then
        (some blockBase, { s with top := newTop, high := max s.high newTop })
      else
        (none, s)
    | none => (none, s)

/-- Rust `<StackAlloc as Alloc>::dealloc`: reclaims the block exactly when it is topmost. -/
def dealloc (s : StackAlloc) (ptr size : Nat) : StackAlloc :=
  let blockIdx := s.get_block_idx ptr
  if usizeAdd blockIdx size = s.top then
    { s with top := blockIdx }
  else
    s

/-- Rust `<StackAlloc as Alloc>::grow_in_place` (release semantics: the two
`debug_assert!`s are compiled out; the `if layout.size() >= new_size` guard remains). -/
def grow_in_place (s : StackAlloc) (ptr oldSize _oldAlign newSize : Nat) :
    GrowResult StackAlloc :=
  if oldSize ≥ newSize then
    .cannotGrow s
  else
    let spaceLeft   := s.capacity - s.bytes_in_use
    let blockGrowth := newSize - oldSize
    if spaceLeft < blockGrowth then
      .cannotGrow s
    else
      let blockIdx := s.get_block_idx ptr
      if blockIdx ≥ s.len then
        .cannotGrow s
      else if usizeAdd blockIdx oldSize ≠ s.top then
        .cannotGrow s
      else
        .ok { s with top := usizeAdd s.top blockGrowth }

/-- Rust `<StackAlloc as Alloc>::shrink_in_place`: always fails. -/
def shrink_in_place (s : StackAlloc) (_ptr _oldSize _oldAlign _newSize : Nat) :
    GrowResult StackAlloc :=
  .cannotGrow s

end StackAlloc

-- ----- LinearAlloc (src/linear_alloc.rs) ---------------------------------------

/-- Rust `LinearAlloc<'a>`: same state shape as `StackAlloc`. -/
structure LinearAlloc where
  base : Nat
  len  : Nat
  top  : Nat
  high : Nat
deriving DecidableEq

namespace LinearAlloc

/-- Rust `LinearAlloc::new`. -/
def new (base len : Nat) : LinearAlloc :=
  { base := base, len := len, top := 0, high := 0 }

/-- Rust `LinearAlloc::reset`. -/
def reset (s : LinearAlloc) : LinearAlloc :=
  { s with top := 0 }

/-- Rust `LinearAlloc::reset_to`. -/
def reset_to (s : LinearAlloc) (m : Marker) : Except ArenaError Unit × LinearAlloc :=
  if m.off < s.len ∧ m.off < s.top then
    (.ok (), { s with top := m.off })
  else
    (.error .invalidMarker, s)

/-- Rust `LinearAlloc::get_marker`. -/
def get_marker (s : LinearAlloc) : Marker :=
  ⟨s.top⟩

/-- Rust `LinearAlloc::bytes_in_use`. -/
def bytes_in_use (s : LinearAlloc) : Nat :=
  s.top

/-- Rust `LinearAlloc::capacity`. -/
def capacity (s : LinearAlloc) : Nat :=
  s.len

/-- Rust `LinearAlloc::high_water_mark`. -/
def high_water_mark (s : LinearAlloc) : Nat :=
  s.high

/-- Rust `LinearAlloc::get_block_idx`. -/
def get_block_idx (s : LinearAlloc) (ptr : Nat) : Nat :=
  usizeSub ptr s.base

/-- Rust `<LinearAlloc as Alloc>::usable_size`: tight bounds. -/
def usable_size (size : Nat) : Nat × Nat :=
  (size, size)

/-- Rust `<LinearAlloc as Alloc>::alloc`.  Differs from `StackAlloc::alloc` in the
alignment step only: the candidate address is `block_base + (block_base % align)`. -/
def alloc (s : LinearAlloc) (size align : Nat) : Option Nat × LinearAlloc :=
  if s.top = s.len then
    (none, s)
  else
    let blockBase0 := s.base + s.top
    let blockBase  := usizeAdd blockBase0 (blockBase0 % align)
    let blockIdx   := usizeSub blockBase s.base
    match checkedAdd blockIdx size with
    | some newTop =>
      if blockIdx < s.len ∧ newTop ≤ s.len then
        (some blockBase, { s with top := newTop, high := max s.high newTop })
      else
        (none, s)
    | none => (none, s)

/-- Rust `<LinearAlloc as Alloc>::dealloc`. -/
def dealloc (s : LinearAlloc) (ptr size : Nat) : LinearAlloc :=
  let blockIdx := s.get_block_idx ptr
  if usizeAdd blockIdx size = s.top then
    { s with top := blockIdx }
  else
    s

/-- Rust `<LinearAlloc as Alloc>::grow_in_place`.  The six caller-contract `assert!`s
are live in all build profiles and are modelled as `panic`. -/
def grow_in_place (s : LinearAlloc) (ptr oldSize oldAlign newSize : Nat) :
    GrowResult LinearAlloc :=
  let blockIdx := s.get_block_idx ptr
  if ¬ blockIdx < s.len then
    .panic
  else if ¬ blockIdx < s.top then
    .panic
  else
    let blockSize := s.top - blockIdx
    if ¬ ptr % oldAlign = 0 then
      .panic
    else if ¬ (usable_size oldSize).1 ≤ blockSize then
      .panic
    else if ¬ newSize ≥ oldSize then
      .panic
    else if newSize = 0 then
      .panic
    else
      let spaceLeft   := s.capacity - s.bytes_in_use
      let blockGrowth := newSize - oldSize
      if spaceLeft < blockGrowth then
        .cannotGrow s
      else if usizeAdd blockIdx oldSize ≠ s.top then
        .cannotGrow s
      else
        .ok { s with top := usizeAdd s.top blockGrowth }

/-- Rust `<LinearAlloc as Alloc>::shrink_in_place`: always fails. -/
def shrink_in_place (s : LinearAlloc) (_ptr _oldSize _oldAlign _newSize : Nat) :
    GrowResult LinearAlloc :=
  .cannotGrow s

/-- Result of `Alloc::realloc`: new pointer on success, `AllocErr` otherwise,
with the allocator state at the point of return. -/
inductive ReallocResult where
  | ok (ptr : Nat) (s : LinearAlloc)
  | err (s : LinearAlloc)
  | panic
deriving DecidableEq

/-- The alloc-copy-dealloc fallback inside the default `Alloc::realloc`
(the byte copy is invisible at this level; the vector layer carries the contents). -/
def reallocFallback (s : LinearAlloc) (ptr oldSize align newSize : Nat) : ReallocResult :=
  match s.alloc newSize align with
  | (some newPtr, s1) => .ok newPtr (s1.dealloc ptr oldSize)
  | (none, s1)        => .err s1

/-- The default `Alloc::realloc` as inherited by `LinearAlloc`: try
`grow_in_place` when not shrinking (`shrink_in_place` always fails here),
then fall back to alloc + copy + dealloc. -/
def realloc (s : LinearAlloc) (ptr oldSize align newSize : Nat) : ReallocResult :=
  if newSize ≥ oldSize then
    match s.grow_in_place ptr oldSize align newSize with
    | .ok s1         => .ok ptr s1
    | .panic         => .panic
    | .cannotGrow s1 => s1.reallocFallback ptr oldSize align newSize
  else
    match s.shrink_in_place ptr oldSize align newSize with
    | .ok s1         => .ok ptr s1
    | .panic         => .panic
    | .cannotGrow s1 => s1.reallocFallback ptr oldSize align newSize

end LinearAlloc

-- ----- Layout and the crate error type -----------------------------------------

/-- Rust `alloc::Layout::array::<T>(n)` for an element type of size `sz` and alignment
`al` (with `sz` a multiple of `al`, as Rust guarantees for any type): the byte
size `sz * n`, or `none` (`LayoutErr`) when the checked multiplication or the
`from_size_align` bound `size <= usize::MAX - (align - 1)` fails. -/
def layoutArray (sz al n : Nat) : Option Nat :=
  if sz * n + al ≤ USIZE then some (sz * n) else none

/-- The crate `Error` type, with the variants matched on in the `vec2.rs` doc
example (`LayoutErr` payload dropped). -/
inductive Error where
  | layoutErr
  | allocErr
  | sizeOverflowErr
deriving DecidableEq

/-- Outcome of an operation that can only succeed or panic. -/
inductive POut (α : Type) where
  | ok (a : α)
  | panic
deriving DecidableEq

-- ----- RawVec (src/raw_vec.rs) -------------------------------------------------

/-- Rust `RawVec<'v, T>`: element capacity and the raw handle to the allocation
(the allocator reference is threaded separately as a `LinearAlloc` state). -/
structure RawVec where
  cap : Nat
  ptr : Nat
deriving DecidableEq

/-- Result of `RawVec` operations that thread the allocator: success or a crate
`Error`, with the `RawVec` and allocator state at the point of return. -/
inductive ReserveResult where
  | ok (rv : RawVec) (a : LinearAlloc)
  | err (e : Error) (rv : RawVec) (a : LinearAlloc)
  | panic
deriving DecidableEq

namespace RawVec

/-- Rust `RawVec::new` for an element type of size `sz` and alignment `al`:
asserts `size_of::<T>() != 0`, performs no allocation, capacity 0, dangling
pointer (`NonNull::dangling()`, address `al`). -/
def new (sz al : Nat) : POut RawVec :=
  if sz = 0 then .panic else .ok { cap := 0, ptr := al }

/-- Rust `RawVec::capacity`. -/
def capacity (rv : RawVec) : Nat :=
  rv.cap

/-- Rust `RawVec::alloc_layout`: `Layout::array::<T>(self.cap).unwrap()`. -/
def alloc_layout (sz al : Nat) (rv : RawVec) : POut Nat :=
  match layoutArray sz al rv.cap with
  | some lsz => .ok lsz
  | none     => .panic

/-- Rust `RawVec::reserve(additional)`. -/
def reserve (sz al : Nat) (rv : RawVec) (a : LinearAlloc) (additional : Nat) :
    ReserveResult :=
  if rv.cap = 0 then
    -- the first allocation goes through `Alloc::alloc`; note `new_cap = 1`
    -- regardless of `additional`, while the layout is for `additional` elements
    match layoutArray sz al additional with
    | none => .panic
    | some lsz =>
      match a.alloc lsz al with
      | (some p, a1) => .ok { cap := 1, ptr := p } a1
      | (none, a1)   => .err .allocErr rv a1
  else
    match layoutArray sz al rv.cap with
    | none => .panic   -- `self.alloc_layout()` unwraps
    | some lsz =>
      match checkedAdd rv.cap additional with
      | none => .err .sizeOverflowErr rv a
      | some newCap =>
        match layoutArray sz al newCap with
        | none => .panic   -- `Layout::array::<T>(new_cap).unwrap()`
        | some newSz =>
          match a.grow_in_place rv.ptr lsz al newSz with
          | .ok a1         => .ok { rv with cap := newCap } a1
          | .panic         => .panic
          | .cannotGrow a1 =>
            match a1.realloc rv.ptr lsz al newSz with
            | .ok p a2 => .ok { cap := newCap, ptr := p } a2
            | .err a2  => .err .allocErr rv a2
            | .panic   => .panic

/-- Rust `RawVec::grow`: doubling, starting from capacity 1. -/
def grow (sz al : Nat) (rv : RawVec) (a : LinearAlloc) : ReserveResult :=
  if rv.cap = 0 then
    reserve sz al rv a 1
  else
    reserve sz al rv a rv.cap

/-- Rust `RawVec::with_capacity`: assert non-ZST, start from the no-allocation state,
then `reserve(capacity)`. -/
def with_capacity (sz al : Nat) (a : LinearAlloc) (capacity : Nat) : ReserveResult :=
  if sz = 0 then .panic
  else reserve sz al { cap := 0, ptr := al } a capacity

end RawVec

-- ----- Vec (src/vec2.rs) -------------------------------------------------------

/-- Rust `Vec<'v, T>`: the backing `RawVec` plus the initialised elements
(`len` is `elems.length`). -/
structure Vec (T : Type) where
  buf   : RawVec
  elems : List T

/-- Result of fallible `Vec` operations. -/
inductive VecResult (T : Type) where
  | ok (v : Vec T) (a : LinearAlloc)
  | err (e : Error) (v : Vec T) (a : LinearAlloc)
  | panic

namespace Vec

variable {T : Type}

/-- Rust `Vec::len`. -/
def len (v : Vec T) : Nat :=
  v.elems.length

/-- Rust `Vec::capacity`. -/
def capacity (v : Vec T) : Nat :=
  v.buf.cap

/-- Rust `Vec::as_slice`: the initialised prefix. -/
def as_slice (v : Vec T) : List T :=
  v.elems

/-- Rust `Vec::new` for an element type of size `sz`, alignment `al`. -/
def new (T : Type) (sz al : Nat) : POut (Vec T) :=
  match RawVec.new sz al with
  | .ok rv  => .ok { buf := rv, elems := [] }
  | .panic  => .panic

/-- Rust `Vec::push`: grow when full, then write `elem` into slot `len`. -/
def push (sz al : Nat) (v : Vec T) (a : LinearAlloc) (elem : T) : VecResult T :=
  if v.elems.length = v.buf.cap then
    match RawVec.grow sz al v.buf a with
    | .ok rv a1       => .ok { buf := rv, elems := v.elems ++ [elem] } a1
    | .err e rv a1    => .err e { buf := rv, elems := v.elems } a1
    | .panic          => .panic
  else
    .ok { buf := v.buf, elems := v.elems ++ [elem] } a

/-- Rust `Vec::pop`. -/
def pop (v : Vec T) : Option T × Vec T :=
  match v.elems.getLast? with
  | none   => (none, v)
  | some x => (some x, { v with elems := v.elems.dropLast })

/-- Rust `Vec::insert`: `assert!(index <= len)`, grow when full, shift `[index, len)`
right and write `elem` at `index` (the shift-and-write is `List.insertIdx`). -/
def insert (sz al : Nat) (v : Vec T) (a : LinearAlloc) (index : Nat) (elem : T) :
    VecResult T :=
  if index ≤ v.elems.length then
    if v.elems.length = v.buf.cap then
      match RawVec.grow sz al v.buf a with
      | .ok rv a1    => .ok { buf := rv, elems := v.elems.insertIdx index elem } a1
      | .err e rv a1 => .err e { buf := rv, elems := v.elems } a1
      | .panic       => .panic
    else
      .ok { buf := v.buf, elems := v.elems.insertIdx index elem } a
  else
    .panic

/-- Rust `Vec::remove`: `assert!(index < len)`, read out slot `index`, close the gap. -/
def remove (v : Vec T) (index : Nat) : POut (T × Vec T) :=
  if h : index < v.elems.length then
    .ok (v.elems[index], { v with elems := v.elems.eraseIdx index })
  else
    .panic

end Vec

-- ----- Specification combinators: sequences of allocator calls -----------------

/-- Run a sequence of `alloc(size, 1)` requests (alignment 1: no padding is ever
introduced), collecting the `(ptr, size)` block records; `none` if any fails. -/
def StackAlloc.alloc_seq (a : StackAlloc) : List Nat → Option (List (Nat × Nat) × StackAlloc)
  | [] => some ([], a)
  | sz :: rest =>
    match a.alloc sz 1 with
    | (some p, a1) =>
      match a1.alloc_seq rest with
      | some (bs, a2) => some ((p, sz) :: bs, a2)
      | none => none
    | (none, _) => none

/-- Run `dealloc` over a list of `(ptr, size)` block records, in list order. -/
def StackAlloc.dealloc_seq (a : StackAlloc) (bs : List (Nat × Nat)) : StackAlloc :=
  bs.foldl (fun st b => st.dealloc b.1 b.2) a

/-- Run a sequence of `alloc(size, 1)` requests (alignment 1: no padding is ever
introduced), collecting the `(ptr, size)` block records; `none` if any fails. -/
def LinearAlloc.alloc_seq (a : LinearAlloc) : List Nat → Option (List (Nat × Nat) × LinearAlloc)
  | [] => some ([], a)
  | sz :: rest =>
    match a.alloc sz 1 with
    | (some p, a1) =>
      match a1.alloc_seq rest with
      | some (bs, a2) => some ((p, sz) :: bs, a2)
      | none => none
    | (none, _) => none

/-- Run `dealloc` over a list of `(ptr, size)` block records, in list order. -/
def LinearAlloc.dealloc_seq (a : LinearAlloc) (bs : List (Nat × Nat)) : LinearAlloc :=
  bs.foldl (fun st b => st.dealloc b.1 b.2) a

-- ----- Helper lemmas ------------------------------------------------------------

theorem usizeSub_base (base idx : Nat) (h : idx < USIZE) :
    usizeSub (base + idx) base = idx := by
  unfold usizeSub
  have h1 : base + idx + USIZE - base = idx + USIZE := by omega
  rw [h1, Nat.add_mod_right, Nat.mod_eq_of_lt h]

theorem usizeAdd_small (a b : Nat) (h : a + b < USIZE) : usizeAdd a b = a + b :=
  Nat.mod_eq_of_lt h

/-- With alignment 1 the adjustment step of `StackAlloc::alloc` is the identity:
the call succeeds exactly when the arena is not full and the block fits, placing
the block at the current top. -/
theorem stackAlloc_alloc_one_eq (s : StackAlloc) (sz : Nat)
    (hwf : s.top ≤ s.len) (hb : s.base + s.len < USIZE) :
    s.alloc sz 1 =
      if s.top ≠ s.len ∧ s.top + sz ≤ s.len
      then (some (s.base + s.top),
            { s with top := s.top + sz, high := max s.high (s.top + sz) })
      else (none, s) := by
  unfold StackAlloc.alloc
  by_cases htl : s.top = s.len
  · rw [if_pos htl, if_neg (by tauto)]
  · have htop : s.top < s.len := lt_of_le_of_ne hwf htl
    rw [if_neg htl]
    simp only [Nat.mod_one, Nat.sub_zero, usizeSub_base s.base s.top (by omega)]
    unfold checkedAdd
    by_cases hszU : s.top + sz < USIZE
    · rw [if_pos hszU]
      dsimp only
      by_cases hg : s.top + sz ≤ s.len
      · rw [if_pos (And.intro htop hg), if_pos (And.intro htl hg)]
      · rw [if_neg (by tauto : ¬ (s.top < s.len ∧ s.top + sz ≤ s.len)),
            if_neg (by tauto : ¬ (s.top ≠ s.len ∧ s.top + sz ≤ s.len))]
    · rw [if_neg hszU, if_neg (by omega : ¬ (s.top ≠ s.len ∧ s.top + sz ≤ s.len))]

/-- With alignment 1 the adjustment step of `LinearAlloc::alloc` is the identity
as well (the added remainder is 0). -/
theorem linearAlloc_alloc_one_eq (s : LinearAlloc) (sz : Nat)
    (hwf : s.top ≤ s.len) (hb : s.base + s.len < USIZE) :
    s.alloc sz 1 =
      if s.top ≠ s.len ∧ s.top + sz ≤ s.len
      then (some (s.base + s.top),
            { s with top := s.top + sz, high := max s.high (s.top + sz) })
      else (none, s) := by
  unfold LinearAlloc.alloc
  by_cases htl : s.top = s.len
  · rw [if_pos htl, if_neg (by tauto)]
  · have htop : s.top < s.len := lt_of_le_of_ne hwf htl
    rw [if_neg htl]
    simp only [Nat.mod_one, Nat.add_zero, usizeAdd_small (s.base + s.top) 0 (by omega),
               Nat.add_zero, usizeSub_base s.base s.top (by omega)]
    unfold checkedAdd
    by_cases hszU : s.top + sz < USIZE
    · rw [if_pos hszU]
      dsimp only
      by_cases hg : s.top + sz ≤ s.len
      · rw [if_pos (And.intro htop hg), if_pos (And.intro htl hg)]
      · rw [if_neg (by tauto : ¬ (s.top < s.len ∧ s.top + sz ≤ s.len)),
            if_neg (by tauto : ¬ (s.top ≠ s.len ∧ s.top + sz ≤ s.len))]
    · rw [if_neg hszU, if_neg (by omega : ¬ (s.top ≠ s.len ∧ s.top + sz ≤ s.len))]

/-- A successful padding-free (alignment 1) allocation sequence deallocated in
exact reverse order restores the starting `top` (`StackAlloc`). -/
theorem stackAlloc_lifo (sizes : List Nat) :
    ∀ (a : StackAlloc) (bs : List (Nat × Nat)) (a2 : StackAlloc),
      a.top ≤ a.len → a.base + a.len < USIZE →
      StackAlloc.alloc_seq a sizes = some (bs, a2) →
      a2.base = a.base ∧ a2.len = a.len ∧ a2.top ≤ a2.len ∧
      StackAlloc.dealloc_seq a2 bs.reverse = { a2 with top := a.top } := by
  induction sizes with
  | nil =>
    intro a bs a2 h1 h2 h
    unfold StackAlloc.alloc_seq at h
    cases h
    exact ⟨rfl, rfl, h1, rfl⟩
  | cons sz rest ih =>
    intro a bs a2 h1 h2 h
    unfold StackAlloc.alloc_seq at h
    rw [stackAlloc_alloc_one_eq a sz h1 h2] at h
    by_cases hok : a.top ≠ a.len ∧ a.top + sz ≤ a.len
    · rw [if_pos hok] at h
      dsimp only at h
      cases hR : StackAlloc.alloc_seq
          { a with top := a.top + sz, high := max a.high (a.top + sz) } rest with
      | none => rw [hR] at h; cases h
      | some pr =>
        obtain ⟨bs1, a21⟩ := pr
        rw [hR] at h
        cases h
        obtain ⟨hbase, hlen, hwf2, hd⟩ :=
          ih { a with top := a.top + sz, high := max a.high (a.top + sz) }
            bs1 a2 hok.2 h2 hR
        refine ⟨hbase, hlen, hwf2, ?_⟩
        rw [List.reverse_cons]
        unfold StackAlloc.dealloc_seq at hd ⊢
        rw [List.foldl_append, hd]
        simp only [List.foldl_cons, List.foldl_nil]
        unfold StackAlloc.dealloc StackAlloc.get_block_idx
        dsimp only
        rw [hbase]
        rw [usizeSub_base a.base a.top (by omega), usizeAdd_small a.top sz (by omega)]
        rw [if_pos rfl]
    · rw [if_neg hok] at h
      dsimp only at h
      cases h

/-- A successful padding-free (alignment 1) allocation sequence deallocated in
exact reverse order restores the starting `top` (`LinearAlloc`). -/
theorem linearAlloc_lifo (sizes : List Nat) :
    ∀ (a : LinearAlloc) (bs : List (Nat × Nat)) (a2 : LinearAlloc),
      a.top ≤ a.len → a.base + a.len < USIZE →
      LinearAlloc.alloc_seq a sizes = some (bs, a2) →
      a2.base = a.base ∧ a2.len = a.len ∧ a2.top ≤ a2.len ∧
      LinearAlloc.dealloc_seq a2 bs.reverse = { a2 with top := a.top } := by
  induction sizes with
  | nil =>
    intro a bs a2 h1 h2 h
    unfold LinearAlloc.alloc_seq at h
    cases h
    exact ⟨rfl, rfl, h1, rfl⟩
  | cons sz rest ih =>
    intro a bs a2 h1 h2 h
    unfold LinearAlloc.alloc_seq at h
    rw [linearAlloc_alloc_one_eq a sz h1 h2] at h
    by_cases hok : a.top ≠ a.len ∧ a.top + sz ≤ a.len
    · rw [if_pos hok] at h
      dsimp only at h
      cases hR : LinearAlloc.alloc_seq
          { a with top := a.top + sz, high := max a.high (a.top + sz) } rest with
      | none => rw [hR] at h; cases h
      | some pr =>
        obtain ⟨bs1, a21⟩ := pr
        rw [hR] at h
        cases h
        obtain ⟨hbase, hlen, hwf2, hd⟩ :=
          ih { a with top := a.top + sz, high := max a.high (a.top + sz) }
            bs1 a2 hok.2 h2 hR
        refine ⟨hbase, hlen, hwf2, ?_⟩
        rw [List.reverse_cons]
        unfold LinearAlloc.dealloc_seq at hd ⊢
        rw [List.foldl_append, hd]
        simp only [List.foldl_cons, List.foldl_nil]
        unfold LinearAlloc.dealloc LinearAlloc.get_block_idx
        dsimp only
        rw [hbase]
        rw [usizeSub_base a.base a.top (by omega), usizeAdd_small a.top sz (by omega)]
        rw [if_pos rfl]
    · rw [if_neg hok] at h
      dsimp only at h
      cases h

-- ----- Claim theorems -----------------------------------------------------------

/-- C1: the claim says every offset returned by a successful `alloc(size, align)`
satisfies `offset % align == 0` and `offset >= top` (round-up).  The code does
neither: starting from a fresh 8-byte arena at the 4-aligned address 64,
`alloc(1, 1)` then `alloc(4, 4)` makes `LinearAlloc` return address 66, i.e.
offset 2 with `2 % 4 ≠ 0` (it *adds* the remainder instead of rounding up), and
makes `StackAlloc` return address 64, i.e. offset `0 < top = 1` (it rounds the
candidate *down*, overlapping the live first allocation). -/
theorem c1_alloc_alignment_code_bug :
    (LinearAlloc.alloc (LinearAlloc.new 64 8) 1 1 = (some 64, ⟨64, 8, 1, 1⟩)) ∧
    (LinearAlloc.alloc ⟨64, 8, 1, 1⟩ 4 4 = (some 66, ⟨64, 8, 6, 6⟩)) ∧
    ¬ (66 - 64) % 4 = 0 ∧
    (StackAlloc.alloc (StackAlloc.new 64 8) 1 1 = (some 64, ⟨64, 8, 1, 1⟩)) ∧
    (StackAlloc.alloc ⟨64, 8, 1, 1⟩ 4 4 = (some 64, ⟨64, 8, 4, 4⟩)) ∧
    64 - 64 < StackAlloc.bytes_in_use ⟨64, 8, 1, 1⟩ := by
  decide

/-- C2: the claim says `high_water_mark() ≥ bytes_in_use()` in every reachable
state and that `high` records the historical maximum of `top`.  `grow_in_place`
advances `top` without touching `high` in both allocators: after `alloc(8, 1)`
(top = high = 8) a successful `grow_in_place(ptr, 8, 16)` leaves
`bytes_in_use() = 16 > high_water_mark() = 8`. -/
theorem c2_high_water_mark_code_bug :
    (LinearAlloc.alloc (LinearAlloc.new 0 24) 8 1 = (some 0, ⟨0, 24, 8, 8⟩)) ∧
    (LinearAlloc.grow_in_place ⟨0, 24, 8, 8⟩ 0 8 1 16 = .ok ⟨0, 24, 16, 8⟩) ∧
    LinearAlloc.high_water_mark ⟨0, 24, 16, 8⟩ < LinearAlloc.bytes_in_use ⟨0, 24, 16, 8⟩ ∧
    (StackAlloc.alloc (StackAlloc.new 0 24) 8 1 = (some 0, ⟨0, 24, 8, 8⟩)) ∧
    (StackAlloc.grow_in_place ⟨0, 24, 8, 8⟩ 0 8 1 16 = .ok ⟨0, 24, 16, 8⟩) ∧
    StackAlloc.high_water_mark ⟨0, 24, 16, 8⟩ < StackAlloc.bytes_in_use ⟨0, 24, 16, 8⟩ := by
  decide

/-- C6: the claim says `with_capacity(allocator, n)` yields `capacity() ≥ n` with
the backing allocation sized for exactly `capacity()` elements.  The first-allocation
branch of `reserve` sets `new_cap = 1` regardless of `additional`: over a fresh
64-byte arena, `with_capacity` for 5 elements of size 4 allocates 20 bytes
(5 elements, the arena top advances to 20) yet reports capacity 1. -/
theorem c6_with_capacity_code_bug :
    RawVec.with_capacity 4 4 (LinearAlloc.new 64 64) 5 = .ok ⟨1, 64⟩ ⟨64, 64, 20, 20⟩ ∧
    RawVec.capacity ⟨1, 64⟩ < 5 ∧
    LinearAlloc.bytes_in_use ⟨64, 64, 20, 20⟩ = 4 * 5 ∧
    LinearAlloc.bytes_in_use ⟨64, 64, 20, 20⟩ ≠ 4 * RawVec.capacity ⟨1, 64⟩ := by
  decide

/-- C3 counterexample: the claim quantifies over `old_size <= new_size` and says
`grow_in_place` succeeds iff the block is topmost and the free space covers the
growth delta.  With `old_size = new_size = 4` on the topmost block `(0, 4)` of an
8-byte `StackAlloc` arena (delta 0 ≤ 4 bytes free), the claim requires success,
but `StackAlloc::grow_in_place` refuses `layout.size() >= new_size` and returns
`CannotReallocInPlace`. -/
theorem c3_counterexample_zero_growth :
    (StackAlloc.alloc (StackAlloc.new 0 8) 4 1 = (some 0, ⟨0, 8, 4, 4⟩)) ∧
    0 + 4 = StackAlloc.bytes_in_use ⟨0, 8, 4, 4⟩ ∧
    4 - 4 ≤ StackAlloc.capacity ⟨0, 8, 4, 4⟩ - StackAlloc.bytes_in_use ⟨0, 8, 4, 4⟩ ∧
    StackAlloc.grow_in_place ⟨0, 8, 4, 4⟩ 0 4 1 4 = .cannotGrow ⟨0, 8, 4, 4⟩ := by
  decide

/-- C3 (amended): for every arena state and every currently allocated block
`(idx, old_size)` with `old_size` strictly *less* than `new_size` (the code treats
`old_size == new_size` as an illegal request, not a trivial success),
`grow_in_place` succeeds — advancing `top` by the delta — if and only if the
block is topmost (`idx + old_size == top`) and
`capacity() - bytes_in_use() ≥ new_size - old_size`; whenever it fails it
returns `CannotReallocInPlace` and leaves the arena state unchanged. -/
theorem c3_grow_in_place_characterization :
    (∀ (s : StackAlloc) (idx oldSize oldAlign newSize : Nat),
        s.top ≤ s.len → s.base + s.len < USIZE →
        idx < s.top → idx + oldSize ≤ s.top → oldSize < newSize →
        ((idx + oldSize = s.top ∧ newSize - oldSize ≤ s.capacity - s.bytes_in_use →
            s.grow_in_place (s.base + idx) oldSize oldAlign newSize =
              .ok { s with top := s.top + (newSize - oldSize) }) ∧
         (¬ (idx + oldSize = s.top ∧ newSize - oldSize ≤ s.capacity - s.bytes_in_use) →
            s.grow_in_place (s.base + idx) oldSize oldAlign newSize = .cannotGrow s))) ∧
    (∀ (t : LinearAlloc) (idx oldSize oldAlign newSize : Nat),
        t.top ≤ t.len → t.base + t.len < USIZE →
        idx < t.top → idx + oldSize ≤ t.top → (t.base + idx) % oldAlign = 0 →
        oldSize < newSize →
        ((idx + oldSize = t.top ∧ newSize - oldSize ≤ t.capacity - t.bytes_in_use →
            t.grow_in_place (t.base + idx) oldSize oldAlign newSize =
              .ok { t with top := t.top + (newSize - oldSize) }) ∧
         (¬ (idx + oldSize = t.top ∧ newSize - oldSize ≤ t.capacity - t.bytes_in_use) →
            t.grow_in_place (t.base + idx) oldSize oldAlign newSize = .cannotGrow t))) := by
  constructor
  · intro s idx oldSize oldAlign newSize hwf hb hidx hblk hlt
    have hIdx : usizeSub (s.base + idx) s.base = idx := usizeSub_base _ _ (by omega)
    have hAdd : usizeAdd idx oldSize = idx + oldSize := usizeAdd_small _ _ (by omega)
    constructor
    · rintro ⟨htm, hsp⟩
      have hsp' : newSize - oldSize ≤ s.len - s.top := hsp
      have hAdd2 : usizeAdd s.top (newSize - oldSize) = s.top + (newSize - oldSize) :=
        usizeAdd_small _ _ (by omega)
      simp only [StackAlloc.grow_in_place, StackAlloc.get_block_idx, StackAlloc.capacity,
                 StackAlloc.bytes_in_use, hIdx, hAdd, hAdd2]
      rw [if_neg (by omega), if_neg (by omega), if_neg (by omega), if_neg (by omega)]
    · intro hno
      simp only [StackAlloc.grow_in_place, StackAlloc.get_block_idx, StackAlloc.capacity,
                 StackAlloc.bytes_in_use, hIdx, hAdd]
      by_cases hsp : newSize - oldSize ≤ s.len - s.top
      · have htm : ¬ idx + oldSize = s.top := fun hEq => hno ⟨hEq, hsp⟩
        rw [if_neg (by omega), if_neg (by omega), if_neg (by omega), if_pos htm]
      · rw [if_neg (by omega), if_pos (by omega)]
  · intro t idx oldSize oldAlign newSize hwf hb hidx hblk halign hlt
    have hIdx : usizeSub (t.base + idx) t.base = idx := usizeSub_base _ _ (by omega)
    have hAdd : usizeAdd idx oldSize = idx + oldSize := usizeAdd_small _ _ (by omega)
    constructor
    · rintro ⟨htm, hsp⟩
      have hsp' : newSize - oldSize ≤ t.len - t.top := hsp
      have hAdd2 : usizeAdd t.top (newSize - oldSize) = t.top + (newSize - oldSize) :=
        usizeAdd_small _ _ (by omega)
      simp only [LinearAlloc.grow_in_place, LinearAlloc.get_block_idx, LinearAlloc.capacity,
                 LinearAlloc.bytes_in_use, LinearAlloc.usable_size, hIdx, hAdd, hAdd2]
      rw [if_neg (by omega), if_neg (by omega), if_neg (not_not_intro halign),
          if_neg (by omega), if_neg (by omega), if_neg (by omega),
          if_neg (by omega), if_neg (by omega)]
    · intro hno
      simp only [LinearAlloc.grow_in_place, LinearAlloc.get_block_idx, LinearAlloc.capacity,
                 LinearAlloc.bytes_in_use, LinearAlloc.usable_size, hIdx, hAdd]
      by_cases hsp : newSize - oldSize ≤ t.len - t.top
      · have htm : ¬ idx + oldSize = t.top := fun hEq => hno ⟨hEq, hsp⟩
        rw [if_neg (by omega), if_neg (by omega), if_neg (not_not_intro halign),
            if_neg (by omega), if_neg (by omega), if_neg (by omega),
            if_neg (by omega), if_pos htm]
      · rw [if_neg (by omega), if_neg (by omega), if_neg (not_not_intro halign),
            if_neg (by omega), if_neg (by omega), if_neg (by omega),
            if_pos (by omega)]

/-- C3 witness: growing the topmost 8-byte block of a 24-byte arena (top 16) to
16 bytes succeeds in both allocators, advancing `top` to 24. -/
theorem c3_witness :
    StackAlloc.grow_in_place ⟨0, 24, 16, 16⟩ (0 + 8) 8 1 16 = .ok ⟨0, 24, 24, 16⟩ ∧
    LinearAlloc.grow_in_place ⟨0, 24, 16, 16⟩ (0 + 8) 8 1 16 = .ok ⟨0, 24, 24, 16⟩ :=
  ⟨(c3_grow_in_place_characterization.1 ⟨0, 24, 16, 16⟩ 8 8 1 16
      (by decide) (by decide) (by decide) (by decide) (by decide)).1
      ⟨by decide, by decide⟩,
   (c3_grow_in_place_characterization.2 ⟨0, 24, 16, 16⟩ 8 8 1 16
      (by decide) (by decide) (by decide) (by decide) (by decide) (by decide)).1
      ⟨by decide, by decide⟩⟩

/-- C4 counterexample: the claim says deallocating successful allocations in exact
reverse order returns `bytes_in_use()` to 0.  Over a fresh 4-byte arena at address
0, `alloc(1, 1)` (offset 0) then `alloc(2, 2)` (offset 2, after 1 byte of
alignment padding) succeed; deallocating in exact reverse order leaves
`bytes_in_use() = 2`: the padding byte strands the first block below the top. -/
theorem c4_counterexample_lifo_padding :
    (LinearAlloc.alloc (LinearAlloc.new 0 4) 1 1 = (some 0, ⟨0, 4, 1, 1⟩)) ∧
    (LinearAlloc.alloc ⟨0, 4, 1, 1⟩ 2 2 = (some 2, ⟨0, 4, 4, 4⟩)) ∧
    LinearAlloc.bytes_in_use (LinearAlloc.dealloc (LinearAlloc.dealloc ⟨0, 4, 4, 4⟩ 2 2) 0 1) = 2 := by
  decide

/-- C5 counterexample: the claim says a marker whose offset equals the current top
(`reset_to(get_marker())` with no intervening operation) is accepted.  Both
implementations test `marker.0 < self.top` strictly and reject it with
`InvalidMarker`. -/
theorem c5_counterexample_marker_at_top :
    (StackAlloc.alloc (StackAlloc.new 0 8) 4 1 = (some 0, ⟨0, 8, 4, 4⟩)) ∧
    StackAlloc.reset_to ⟨0, 8, 4, 4⟩ (StackAlloc.get_marker ⟨0, 8, 4, 4⟩) =
      (.error .invalidMarker, ⟨0, 8, 4, 4⟩) ∧
    LinearAlloc.reset_to ⟨0, 8, 4, 4⟩ (LinearAlloc.get_marker ⟨0, 8, 4, 4⟩) =
      (.error .invalidMarker, ⟨0, 8, 4, 4⟩) := by
  refine ⟨by decide, rfl, rfl⟩

/-- C4 (amended): `dealloc(offset, size)` is infallible: if `offset + size == top`
it sets `top = offset`, reclaiming the space, and otherwise it leaves the arena
completely unchanged.  Consequently, deallocating a sequence of successful
allocations in exact reverse (LIFO) order returns `bytes_in_use()` to its
starting value (0 for a fresh arena) *provided no alignment padding was
introduced* — formalised by alignment-1 requests, which place every block
exactly at the then-current top; with padding, bytes can remain in use (see the
counterexample). -/
theorem c4_dealloc_topmost_and_lifo :
    (∀ (s : StackAlloc) (idx size : Nat), idx < USIZE → idx + size < USIZE →
        StackAlloc.dealloc s (s.base + idx) size =
          if idx + size = s.top then { s with top := idx } else s) ∧
    (∀ (t : LinearAlloc) (idx size : Nat), idx < USIZE → idx + size < USIZE →
        LinearAlloc.dealloc t (t.base + idx) size =
          if idx + size = t.top then { t with top := idx } else t) ∧
    (∀ (sizes : List Nat) (s s2 : StackAlloc) (bs : List (Nat × Nat)),
        s.top ≤ s.len → s.base + s.len < USIZE →
        StackAlloc.alloc_seq s sizes = some (bs, s2) →
        StackAlloc.bytes_in_use (StackAlloc.dealloc_seq s2 bs.reverse) =
          StackAlloc.bytes_in_use s) ∧
    (∀ (sizes : List Nat) (t t2 : LinearAlloc) (bs : List (Nat × Nat)),
        t.top ≤ t.len → t.base + t.len < USIZE →
        LinearAlloc.alloc_seq t sizes = some (bs, t2) →
        LinearAlloc.bytes_in_use (LinearAlloc.dealloc_seq t2 bs.reverse) =
          LinearAlloc.bytes_in_use t) := by
  refine ⟨?_, ?_, ?_, ?_⟩
  · intro s idx size h1 h2
    unfold StackAlloc.dealloc StackAlloc.get_block_idx
    rw [usizeSub_base s.base idx h1]
    dsimp only
    rw [usizeAdd_small idx size h2]
  · intro t idx size h1 h2
    unfold LinearAlloc.dealloc LinearAlloc.get_block_idx
    rw [usizeSub_base t.base idx h1]
    dsimp only
    rw [usizeAdd_small idx size h2]
  · intro sizes s s2 bs h1 h2 h
    obtain ⟨-, -, -, hd⟩ := stackAlloc_lifo sizes s bs s2 h1 h2 h
    rw [hd]
    rfl
  · intro sizes t t2 bs h1 h2 h
    obtain ⟨-, -, -, hd⟩ := linearAlloc_lifo sizes t bs t2 h1 h2 h
    rw [hd]
    rfl

/-- C4 witness: deallocating the topmost block reclaims it in both allocators,
and a padding-free two-allocation sequence deallocated in reverse order returns
`bytes_in_use()` to 0. -/
theorem c4_witness :
    StackAlloc.dealloc ⟨0, 8, 4, 4⟩ (0 + 0) 4 = ⟨0, 8, 0, 4⟩ ∧
    LinearAlloc.dealloc ⟨0, 8, 4, 4⟩ (0 + 0) 4 = ⟨0, 8, 0, 4⟩ ∧
    StackAlloc.bytes_in_use
      (StackAlloc.dealloc_seq ⟨0, 8, 3, 3⟩ [(0, 1), (1, 2)].reverse) = 0 ∧
    LinearAlloc.bytes_in_use
      (LinearAlloc.dealloc_seq ⟨0, 8, 3, 3⟩ [(0, 1), (1, 2)].reverse) = 0 :=
  ⟨c4_dealloc_topmost_and_lifo.1 ⟨0, 8, 4, 4⟩ 0 4 (by decide) (by decide),
   c4_dealloc_topmost_and_lifo.2.1 ⟨0, 8, 4, 4⟩ 0 4 (by decide) (by decide),
   c4_dealloc_topmost_and_lifo.2.2.1 [1, 2] ⟨0, 8, 0, 0⟩ ⟨0, 8, 3, 3⟩
     [(0, 1), (1, 2)] (by decide) (by decide) (by decide),
   c4_dealloc_topmost_and_lifo.2.2.2 [1, 2] ⟨0, 8, 0, 0⟩ ⟨0, 8, 3, 3⟩
     [(0, 1), (1, 2)] (by decide) (by decide) (by decide)⟩

/-- C5 (amended): `reset_to(marker)` fails with `InvalidMarker` exactly when the
marker's saved offset is greater than *or equal to* the current `top` (both
implementations test `marker.0 < self.top` strictly, so a marker at the current
top — e.g. `reset_to(get_marker())` with no intervening operation — is rejected;
since `top ≤ capacity`, any marker at or beyond `capacity` is rejected too); on
failure the arena state is left unchanged, on success only `top` moves. -/
theorem c5_reset_to_characterization :
    ∀ (s : StackAlloc) (t : LinearAlloc) (m : Marker),
      s.top ≤ s.len → t.top ≤ t.len →
      ((m.off < s.top → StackAlloc.reset_to s m = (.ok (), { s with top := m.off })) ∧
       (s.top ≤ m.off → StackAlloc.reset_to s m = (.error .invalidMarker, s))) ∧
      ((m.off < t.top → LinearAlloc.reset_to t m = (.ok (), { t with top := m.off })) ∧
       (t.top ≤ m.off → LinearAlloc.reset_to t m = (.error .invalidMarker, t))) := by
  intro s t m hs ht
  refine ⟨⟨?_, ?_⟩, ⟨?_, ?_⟩⟩
  · intro h
    unfold StackAlloc.reset_to
    rw [if_pos ⟨lt_of_lt_of_le h hs, h⟩]
  · intro h
    unfold StackAlloc.reset_to
    rw [if_neg (by omega)]
  · intro h
    unfold LinearAlloc.reset_to
    rw [if_pos ⟨lt_of_lt_of_le h ht, h⟩]
  · intro h
    unfold LinearAlloc.reset_to
    rw [if_neg (by omega)]

/-- C5 witness: a marker strictly below `top` is accepted (moving only `top`),
and a marker above `top` is rejected leaving the arena unchanged. -/
theorem c5_witness :
    StackAlloc.reset_to ⟨0, 8, 4, 4⟩ ⟨2⟩ = (.ok (), ⟨0, 8, 2, 4⟩) ∧
    LinearAlloc.reset_to ⟨0, 8, 4, 4⟩ ⟨6⟩ = (.error .invalidMarker, ⟨0, 8, 4, 4⟩) :=
  ⟨((c5_reset_to_characterization ⟨0, 8, 4, 4⟩ ⟨0, 8, 4, 4⟩ ⟨2⟩ (by decide) (by decide)).1).1
      (by decide),
   ((c5_reset_to_characterization ⟨0, 8, 4, 4⟩ ⟨0, 8, 4, 4⟩ ⟨6⟩ (by decide) (by decide)).2).2
      (by decide)⟩

/-- C8 counterexample: the claim says an element-count × element-size overflow
while computing a new capacity is surfaced as a `SizeOverflow` `Result` before
any allocation.  For elements of size 8, `with_capacity(allocator, 2^62)` makes
`Layout::array` fail (`8 * 2^62` exceeds `usize`), and the code `.unwrap()`s that
failure: it panics instead of returning any `Result`. -/
theorem c8_counterexample_layout_overflow_panics :
    RawVec.with_capacity 8 8 (LinearAlloc.new 0 64) (2 ^ 62) = .panic := by
  decide

/-- C8 (amended): the overflow that `reserve` does surface as `SizeOverflow` is
the element-*count* addition `self.cap.checked_add(additional)`: whenever it
overflows `usize`, `reserve` returns `Err(SizeOverflowErr)` before any
allocation is attempted — the `RawVec` and the arena are returned unchanged.
(An element-count × element-size overflow inside `Layout::array` is instead
`.unwrap()`ed, i.e. it panics; see the counterexample.) -/
theorem c8_reserve_count_overflow_surfaced :
    ∀ (sz al : Nat) (rv : RawVec) (a : LinearAlloc) (additional lsz : Nat),
      rv.cap ≠ 0 → layoutArray sz al rv.cap = some lsz →
      USIZE ≤ rv.cap + additional →
      RawVec.reserve sz al rv a additional = .err .sizeOverflowErr rv a := by
  intro sz al rv a additional lsz hcap hlay hover
  unfold RawVec.reserve
  rw [if_neg hcap, hlay]
  have hnone : checkedAdd rv.cap additional = none := by
    unfold checkedAdd
    rw [if_neg (by omega)]
  rw [hnone]

/-- C8 witness: a reserve request pushing the capacity count past `usize::MAX`
returns `SizeOverflowErr` with the vector storage and arena untouched. -/
theorem c8_witness :
    RawVec.reserve 1 1 ⟨1, 64⟩ ⟨0, 8, 1, 1⟩ (USIZE - 1) =
      .err .sizeOverflowErr ⟨1, 64⟩ ⟨0, 8, 1, 1⟩ :=
  c8_reserve_count_overflow_surfaced 1 1 ⟨1, 64⟩ ⟨0, 8, 1, 1⟩ (USIZE - 1) 1
    (by decide) (by decide) (by decide)

/-- C10: `RawVec::new` and `RawVec::with_capacity` both `assert!` that the
element type is not zero-sized and panic when `size_of::<T>() == 0` (so no
vector over a ZST is ever constructed, `Vec::new` included); for a non-ZST,
`new` performs no allocator call at all and yields capacity 0 with the dangling
sentinel handle. -/
theorem c10_zst_rejected_new_no_alloc :
    ∀ (T : Type) (sz al n : Nat) (a : LinearAlloc),
      RawVec.new 0 al = .panic ∧
      RawVec.with_capacity 0 al a n = .panic ∧
      Vec.new T 0 al = .panic ∧
      (sz ≠ 0 →
        RawVec.new sz al = .ok { cap := 0, ptr := al } ∧
        Vec.new T sz al = .ok { buf := { cap := 0, ptr := al }, elems := [] }) := by
  intro T sz al n a
  refine ⟨rfl, rfl, rfl, ?_⟩
  intro h
  constructor
  · unfold RawVec.new
    rw [if_neg h]
  · unfold Vec.new RawVec.new
    rw [if_neg h]

/-- C10 witness: for 4-byte elements, `new` yields the no-allocation state. -/
theorem c10_witness :
    RawVec.new 4 4 = .ok { cap := 0, ptr := 4 } ∧
    Vec.new Nat 4 4 = .ok { buf := { cap := 0, ptr := 4 }, elems := [] } :=
  (c10_zst_rejected_new_no_alloc Nat 4 4 3 ⟨0, 8, 0, 0⟩).2.2.2 (by decide)

/-- Every error return inside `reserve` happens before `self.cap`/`self.ptr` are
assigned, so the `RawVec` reported on the error path is the original one. -/
theorem reserve_err_rawvec_eq (sz al : Nat) (rv : RawVec) (a : LinearAlloc)
    (additional : Nat) (e : Error) (rv' : RawVec) (a' : LinearAlloc)
    (h : RawVec.reserve sz al rv a additional = .err e rv' a') : rv' = rv := by
  unfold RawVec.reserve at h
  repeat' split at h
  all_goals cases h
  all_goals rfl

/-- The function `grow` delegates to `reserve` in both branches, so its error path also
reports the original `RawVec`. -/
theorem grow_err_rawvec_eq (sz al : Nat) (rv : RawVec) (a : LinearAlloc)
    (e : Error) (rv' : RawVec) (a' : LinearAlloc)
    (h : RawVec.grow sz al rv a = .err e rv' a') : rv' = rv := by
  unfold RawVec.grow at h
  split at h
  · exact reserve_err_rawvec_eq _ _ _ _ _ _ _ _ h
  · exact reserve_err_rawvec_eq _ _ _ _ _ _ _ _ h

/-- C7: when `push` or `insert` fails because growth fails, the error is
propagated as a `Result` and the vector's prior state is fully intact — same
element sequence (`as_slice`), same `len`, same `capacity`; the element is never
written. -/
theorem c7_push_insert_failure_leaves_vec_intact :
    ∀ {T : Type} (sz al : Nat) (v : Vec T) (a : LinearAlloc) (x : T) (i : Nat)
      (e : Error) (v' : Vec T) (a' : LinearAlloc),
      (Vec.push sz al v a x = .err e v' a' →
        v' = v ∧ v'.as_slice = v.as_slice ∧ v'.len = v.len ∧ v'.capacity = v.capacity) ∧
      (Vec.insert sz al v a i x = .err e v' a' →
        v' = v ∧ v'.as_slice = v.as_slice ∧ v'.len = v.len ∧ v'.capacity = v.capacity) := by
  intro T sz al v a x i e v' a'
  constructor
  · intro h
    suffices hv : v' = v by exact ⟨hv, by rw [hv], by rw [hv], by rw [hv]⟩
    unfold Vec.push at h
    split at h
    · cases hG : RawVec.grow sz al v.buf a with
      | ok rv a1 => rw [hG] at h; cases h
      | panic => rw [hG] at h; cases h
      | err e1 rv1 a1 =>
        rw [hG] at h
        cases h
        rw [grow_err_rawvec_eq _ _ _ _ _ _ _ hG]
    · cases h
  · intro h
    suffices hv : v' = v by exact ⟨hv, by rw [hv], by rw [hv], by rw [hv]⟩
    unfold Vec.insert at h
    split at h
    · split at h
      · cases hG : RawVec.grow sz al v.buf a with
        | ok rv a1 => rw [hG] at h; cases h
        | panic => rw [hG] at h; cases h
        | err e1 rv1 a1 =>
          rw [hG] at h
          cases h
          rw [grow_err_rawvec_eq _ _ _ _ _ _ _ hG]
      · cases h
    · cases h

/-- C7 witness: over an exhausted (zero-length) arena, pushing onto an empty
vector fails with `AllocErr`, and the theorem reports the vector unchanged. -/
theorem c7_witness :
    (⟨⟨0, 4⟩, []⟩ : Vec Nat) = (⟨⟨0, 4⟩, []⟩ : Vec Nat) ∧
    Vec.as_slice (⟨⟨0, 4⟩, []⟩ : Vec Nat) = Vec.as_slice (⟨⟨0, 4⟩, []⟩ : Vec Nat) ∧
    Vec.len (⟨⟨0, 4⟩, []⟩ : Vec Nat) = Vec.len (⟨⟨0, 4⟩, []⟩ : Vec Nat) ∧
    Vec.capacity (⟨⟨0, 4⟩, []⟩ : Vec Nat) = Vec.capacity (⟨⟨0, 4⟩, []⟩ : Vec Nat) :=
  (c7_push_insert_failure_leaves_vec_intact 4 4 ⟨⟨0, 4⟩, []⟩ ⟨0, 0, 0, 0⟩ 9 0 .allocErr
      ⟨⟨0, 4⟩, []⟩ ⟨0, 0, 0, 0⟩).1 rfl

/-- C9: if `insert(i, x)` succeeds then `remove(i)` on the result returns `x`
and restores the original element sequence and length, whatever happened to the
capacity during growth. -/
theorem c9_insert_remove_roundtrip :
    ∀ {T : Type} (sz al : Nat) (v : Vec T) (a : LinearAlloc) (i : Nat) (x : T)
      (v' : Vec T) (a' : LinearAlloc),
      Vec.insert sz al v a i x = .ok v' a' →
      Vec.remove v' i = .ok (x, ⟨v'.buf, v.elems⟩) ∧
      Vec.as_slice (⟨v'.buf, v.elems⟩ : Vec T) = Vec.as_slice v ∧
      Vec.len (⟨v'.buf, v.elems⟩ : Vec T) = Vec.len v := by
  intro T sz al v a i x v' a' h
  have key : v'.elems = v.elems.insertIdx i x ∧ i ≤ v.elems.length := by
    unfold Vec.insert at h
    split at h
    case isTrue hi =>
      split at h
      · cases hG : RawVec.grow sz al v.buf a with
        | ok rv a1 => rw [hG] at h; cases h; exact ⟨rfl, hi⟩
        | err e1 rv1 a1 => rw [hG] at h; cases h
        | panic => rw [hG] at h; cases h
      · cases h; exact ⟨rfl, hi⟩
    case isFalse hi => cases h
  obtain ⟨helems, hi⟩ := key
  have hlen : v'.elems.length = v.elems.length + 1 := by
    rw [helems]
    exact List.length_insertIdx _ _ hi
  have hlt : i < v'.elems.length := by omega
  refine ⟨?_, rfl, rfl⟩
  unfold Vec.remove
  rw [dif_pos hlt]
  have hget : getElem v'.elems i hlt = x := by
    simp only [helems]
    exact List.getElem_insertIdx_self _ _ _ hi
  have herase : v'.elems.eraseIdx i = v.elems := by
    rw [helems]
    exact List.eraseIdx_insertIdx _ _
  rw [hget, herase]

/-- C9 witness: inserting 9 at index 1 of `[5, 6]` (capacity 4, no growth) and
removing index 1 returns 9 and restores `[5, 6]`. -/
theorem c9_witness :
    Vec.remove (⟨⟨4, 64⟩, [5, 9, 6]⟩ : Vec Nat) 1 = .ok (9, ⟨⟨4, 64⟩, [5, 6]⟩) ∧
    Vec.as_slice (⟨⟨4, 64⟩, [5, 6]⟩ : Vec Nat) = Vec.as_slice (⟨⟨4, 64⟩, [5, 6]⟩ : Vec Nat) ∧
    Vec.len (⟨⟨4, 64⟩, [5, 6]⟩ : Vec Nat) = Vec.len (⟨⟨4, 64⟩, [5, 6]⟩ : Vec Nat) :=
  c9_insert_remove_roundtrip 4 4 ⟨⟨4, 64⟩, [5, 6]⟩ ⟨0, 64, 0, 0⟩ 1 9
    ⟨⟨4, 64⟩, [5, 9, 6]⟩ ⟨0, 64, 0, 0⟩ rfl

end AllocUtils
